import Mathlib

/-!
Shallow embedding of the GeoJSON-Dashboard pipeline (`src/app.py` and
`src/kafka_integration.py`).

The repository's own logic is orchestration: it validates a batch of
geometries in parallel, conditionally repairs the whole batch with a
zero-distance buffer, filters out still-invalid records, detects exact
duplicate geometries, and publishes a summary event.  All geometric
primitives (`is_valid`, `explain_validity`, `buffer(0)`, `wkt`) are calls
into the external shapely library, so the embedding is parametric over an
interface bundling those primitives; a small concrete model of shapely's
documented behaviour instantiates the interface for concrete evaluation.
-/

/-- Interface of the external geometry library (shapely) as used by
`src/app.py`: the validity predicate `is_valid`, the textual explanation
`explain_validity`, the WKT rendering `wkt`, and the zero-distance buffer
transform `buffer0` (the `.buffer(0)` call on line 100). -/
structure GeoLib (G : Type) where
  is_valid : G → Bool
  explain_validity : G → String
  wkt : G → String
  buffer0 : G → G

/-- Result dictionary returned by `parallel_validate` (`src/app.py` lines
49-53): keys `valid`, `issue`, `wkt`. -/
structure ValidationResult where
  valid : Bool
  issue : Option String
  wkt : String
deriving Repr, DecidableEq

/-- `parallel_validate` (`src/app.py` lines 41-53): validate a single
geometry, returning its validity, an explanation when invalid (`None`
otherwise), and its WKT text. -/
def parallel_validate {G : Type} (lib : GeoLib G) (geom : G) : ValidationResult :=
  { valid := lib.is_valid geom
    issue := if lib.is_valid geom then none else some (lib.explain_validity geom)
    wkt := lib.wkt geom }

/-- Model of `ThreadPoolExecutor.map` (`src/app.py` lines 79-80) with an
explicit worker-completion schedule: `order` lists the input indices in the
order the concurrent workers finish; each finished worker contributes the
pair (its index, its result), and the runner reassembles the output by
original index, slot `i` of the output holding the result for input `i`
(or `none` if no worker for `i` completed). -/
def scheduledRun {α β : Type} (f : α → β) (xs : List α) (order : List Nat) :
    List (Option β) :=
  let completed := order.filterMap fun i => (xs.get? i).map fun x => (i, f x)
  (List.range xs.length).map fun i =>
    (completed.find? fun p => p.1 = i).map Prod.snd

/-- One row of the GeoDataFrame, carrying the per-record state built up by
`src/app.py`: the stable positional `index`, the original `geometry`
column, the `valid` and `issue` columns appended on lines 85-86, and the
`geometry_fixed` / `valid_fixed` columns added on lines 100-102 (absent,
i.e. `none`, when the repair branch never ran). -/
structure RecordState (G : Type) where
  index : Nat
  geometry : G
  valid : Bool
  issue : Option String
  geometry_fixed : Option G
  valid_fixed : Option Bool
deriving Repr, DecidableEq

/-- The geometry column that is active at the end of the run: after
`set_geometry('geometry_fixed', drop=True)` (`src/app.py` lines 108 and
116) the fixed geometry is the geometry column; when the repair branch
never ran the original geometry remains active. -/
def RecordState.finalGeometry {G : Type} (r : RecordState G) : G :=
  match r.geometry_fixed with
  | some gf => gf
  | none => r.geometry

/-- The row built for input position `i` holding geometry `g`: the
original geometry plus the `valid` and `issue` columns copied from the
`parallel_validate` result (`src/app.py` lines 85-86). -/
def vRecord {G : Type} (lib : GeoLib G) (i : Nat) (g : G) : RecordState G :=
  { index := i, geometry := g
    valid := (parallel_validate lib g).valid
    issue := (parallel_validate lib g).issue
    geometry_fixed := none, valid_fixed := none }

/-- Validation stage (`src/app.py` lines 79-86): run `parallel_validate`
over every geometry and append the `valid` and `issue` columns to the
rows, keeping the original order and positional index. -/
def validateStage {G : Type} (lib : GeoLib G) (geoms : List G) :
    List (RecordState G) :=
  geoms.enum.map fun p => vRecord lib p.1 p.2

/-- One row's enrichment by the repair attempt (`src/app.py` lines
100-102): `geometry_fixed` is `buffer(0)` of the geometry, `valid_fixed`
its revalidation. -/
def bufferFix {G : Type} (lib : GeoLib G) (r : RecordState G) : RecordState G :=
  let gf := lib.buffer0 r.geometry
  { r with geometry_fixed := some gf, valid_fixed := some (lib.is_valid gf) }

/-- The batch after `gdf['geometry_fixed'] = gdf.geometry.buffer(0)` and
`gdf['valid_fixed'] = gdf['geometry_fixed'].apply(lambda g: g.is_valid)`
(`src/app.py` lines 100-102): `buffer0` applied to every row's geometry,
and the revalidation flag recorded. -/
def fixedRows {G : Type} (lib : GeoLib G) (rows : List (RecordState G)) :
    List (RecordState G) :=
  rows.map (bufferFix lib)

/-- The boolean of the `valid_fixed` column used by the filters on
`src/app.py` lines 104 and 115. -/
def validFixed {G : Type} (r : RecordState G) : Bool :=
  r.valid_fixed.getD false

/-- Repair branch (`src/app.py` lines 90-120).  Returns the pair
(rows of `gdf` after the branch, the `still_invalid` rows reported on line
113).  If no geometry was invalid the rows pass through untouched; else
`buffer(0)` is applied to every row, and when some rows remain invalid the
data frame is filtered down to the repaired-valid rows. -/
def repairStage {G : Type} (lib : GeoLib G) (rows : List (RecordState G)) :
    List (RecordState G) × List (RecordState G) :=
  let invalid_geometries := rows.filter fun r => !r.valid
  if invalid_geometries.isEmpty then
    (rows, [])
  else
    let fixed := fixedRows lib rows
    let still_invalid := fixed.filter fun r => !validFixed r
    if still_invalid.isEmpty then
      (fixed, [])
    else
      (fixed.filter validFixed, still_invalid)

/-- `gdf.duplicated(subset='geometry', keep=False)` (`src/app.py` line
125): one boolean per row, true exactly when the row's geometry value
occurs two or more times in the column. -/
def duplicatedKeepFalse {G : Type} [DecidableEq G] (gs : List G) : List Bool :=
  gs.map fun g => decide (2 ≤ gs.count g)

/-- The Kafka event dictionary built on `src/app.py` lines 181-186. -/
structure AppEvent where
  filename : String
  timestamp : String
  processing_time : Nat
  total_features : Nat
deriving Repr, DecidableEq

/-- Everything the run exposes: the final rows of `gdf` (the kept set),
the three reports (initial invalids of line 90, still-invalid rows of line
104, the duplicate flags of line 125), whether the map was rendered
(line 139), whether the "No valid geometries to visualize" path was taken
(lines 150-153), and the summary event of lines 181-186. -/
structure RunResult (G : Type) where
  kept : List (RecordState G)
  invalid_geometries : List (RecordState G)
  still_invalid : List (RecordState G)
  duplicateFlags : List Bool
  mapShown : Bool
  noValidGeometriesMessage : Bool
  event : AppEvent
deriving Repr

/-- The processing pipeline of `src/app.py` lines 56-188 for one uploaded
batch: validation (lines 79-86), the conditional repair branch (lines
90-120), duplicate detection over the final geometry column (line 125),
the map-or-message choice (lines 139-153), and the summary event whose
`total_features` is `len(gdf)` at line 185 (the data frame as it stands
after any exclusion).  `filename`, `timestamp` and `processing_time` stand
for the ambient values read on lines 182-184. -/
def processBatch {G : Type} [DecidableEq G] (lib : GeoLib G)
    (filename timestamp : String) (processing_time : Nat) (geoms : List G) :
    RunResult G :=
  let rows := validateStage lib geoms
  let invalid_geometries := rows.filter fun r => !r.valid
  let p := repairStage lib rows
  let gdf := p.1
  { kept := gdf
    invalid_geometries := invalid_geometries
    still_invalid := p.2
    duplicateFlags := duplicatedKeepFalse (gdf.map RecordState.finalGeometry)
    mapShown := !gdf.isEmpty
    noValidGeometriesMessage := gdf.isEmpty
    event :=
      { filename := filename, timestamp := timestamp
        processing_time := processing_time, total_features := gdf.length } }

/-- The messaging collaborator: a producer whose `send` and `flush` can
fail (`kafka-python`'s `KafkaProducer` as used by
`src/kafka_integration.py`). -/
structure KafkaProducer (E : Type) where
  send : String → E → Except String Unit
  flush : Except String Unit

/-- Outcome of `send_kafka_event`: which logging branch ran.  The function
always returns; no branch re-raises. -/
inductive KafkaSendResult where
  | producerMissing
  | sent
  | sendFailed (err : String)
deriving Repr, DecidableEq

/-- `send_kafka_event` (`src/kafka_integration.py` lines 29-50): if the
producer is `None`, log an error and return; otherwise try to send and
flush, logging success, and catch any exception, logging the error.  In
every case the function returns normally. -/
def send_kafka_event {E : Type} (producer : Option (KafkaProducer E))
    (topic : String) (event : E) : KafkaSendResult :=
  match producer with
  | none => .producerMissing
  | some p =>
    match p.send topic event with
    | .error e => .sendFailed e
    | .ok _ =>
      match p.flush with
      | .error e => .sendFailed e
      | .ok _ => .sent

/-- The full run of `src/app.py` for one upload: the processing pipeline
followed by `send_kafka_event(producer, "geojson_upload_events", event)`
on line 188. -/
def runApp {G : Type} [DecidableEq G] (lib : GeoLib G)
    (producer : Option (KafkaProducer AppEvent))
    (filename timestamp : String) (processing_time : Nat) (geoms : List G) :
    RunResult G × KafkaSendResult :=
  let res := processBatch lib filename timestamp processing_time geoms
  (res, send_kafka_event producer "geojson_upload_events" res.event)

/-- Modelled from the spec: a concrete geometry type standing in for the
shapely geometries consumed by the core (the library itself is external to
this repository).  Coordinates are exact integer pairs; a polygon carries
two structural flags: whether it is self-intersecting (hence invalid per
the OGC rules) and whether that defect is beyond what a zero-distance
buffer can resolve. -/
inductive MGeom where
  | point (x y : Int)
  | line (coords : List (Int × Int))
  | poly (ring : List (Int × Int)) (selfIntersecting : Bool) (unfixable : Bool)
  | emptyPoly
deriving Repr, DecidableEq

/-- Modelled from the spec: shapely's OGC validity predicate.  Points,
lines and empty geometries are valid; a polygon is valid exactly when it
is not self-intersecting. -/
def mIsValid : MGeom → Bool
  | .point _ _ => true
  | .line _ => true
  | .poly _ si _ => !si
  | .emptyPoly => true

/-- Modelled from the spec: shapely's `explain_validity`, a non-empty
deterministic description of the first structural violation. -/
def mExplain : MGeom → String
  | _ => "Self-intersection"

/-- Modelled from the spec: a WKT rendering (only its existence matters to
the core). -/
def mWkt : MGeom → String
  | .point _ _ => "POINT"
  | .line _ => "LINESTRING"
  | .poly _ _ _ => "POLYGON"
  | .emptyPoly => "POLYGON EMPTY"

/-- Modelled from the spec: shapely's zero-distance buffer.  On non-areal
geometry (a point or a line) it produces an empty polygon; on a polygon it
resolves the self-intersection unless the defect is unfixable; empty stays
empty. -/
def mBuffer0 : MGeom → MGeom
  | .point _ _ => .emptyPoly
  | .line _ => .emptyPoly
  | .poly r _ unf => .poly r unf unf
  | .emptyPoly => .emptyPoly

/-- The concrete instantiation of the geometry-library interface. -/
def mLib : GeoLib MGeom :=
  { is_valid := mIsValid, explain_validity := mExplain
    wkt := mWkt, buffer0 := mBuffer0 }

/-! ### Basic lemmas about the embedding -/

theorem parallel_validate_valid {G : Type} (lib : GeoLib G) (g : G) :
    (parallel_validate lib g).valid = lib.is_valid g := rfl

theorem parallel_validate_issue {G : Type} (lib : GeoLib G) (g : G) :
    (parallel_validate lib g).issue =
      if lib.is_valid g then none else some (lib.explain_validity g) := rfl

theorem vRecord_valid {G : Type} (lib : GeoLib G) (i : Nat) (g : G) :
    (vRecord lib i g).valid = lib.is_valid g := rfl

theorem vRecord_finalGeometry {G : Type} (lib : GeoLib G) (i : Nat) (g : G) :
    (vRecord lib i g).finalGeometry = g := rfl

theorem bufferFix_index {G : Type} (lib : GeoLib G) (r : RecordState G) :
    (bufferFix lib r).index = r.index := rfl

theorem bufferFix_geometry {G : Type} (lib : GeoLib G) (r : RecordState G) :
    (bufferFix lib r).geometry = r.geometry := rfl

theorem bufferFix_geometry_fixed {G : Type} (lib : GeoLib G) (r : RecordState G) :
    (bufferFix lib r).geometry_fixed = some (lib.buffer0 r.geometry) := rfl

theorem bufferFix_valid_fixed {G : Type} (lib : GeoLib G) (r : RecordState G) :
    (bufferFix lib r).valid_fixed = some (lib.is_valid (lib.buffer0 r.geometry)) := rfl

theorem validFixed_bufferFix {G : Type} (lib : GeoLib G) (r : RecordState G) :
    validFixed (bufferFix lib r) = lib.is_valid (lib.buffer0 r.geometry) := rfl

theorem bufferFix_finalGeometry {G : Type} (lib : GeoLib G) (r : RecordState G) :
    (bufferFix lib r).finalGeometry = lib.buffer0 r.geometry := rfl

theorem validateStage_length {G : Type} (lib : GeoLib G) (geoms : List G) :
    (validateStage lib geoms).length = geoms.length := by
  simp [validateStage, List.enum_length]

theorem mem_validateStage {G : Type} (lib : GeoLib G) (geoms : List G)
    (r : RecordState G) :
    r ∈ validateStage lib geoms ↔
      ∃ i, ∃ h : i < geoms.length, r = vRecord lib i geoms[i] := by
  simp only [validateStage, List.mem_map, List.exists_mem_enum, eq_comm]

theorem validateStage_getElem {G : Type} (lib : GeoLib G) (geoms : List G)
    (i : Nat) (h1 : i < geoms.length) (h2 : i < (validateStage lib geoms).length) :
    (validateStage lib geoms).get ⟨i, h2⟩ = vRecord lib i geoms[i] := by
  simp [validateStage, List.get_eq_getElem, List.getElem_map, List.getElem_enum]

theorem fixedRows_length {G : Type} (lib : GeoLib G) (rows : List (RecordState G)) :
    (fixedRows lib rows).length = rows.length := by
  simp [fixedRows]

theorem mem_fixedRows {G : Type} (lib : GeoLib G) (rows : List (RecordState G))
    (r : RecordState G) :
    r ∈ fixedRows lib rows ↔ ∃ r0 ∈ rows, r = bufferFix lib r0 := by
  simp only [fixedRows, List.mem_map, eq_comm]

theorem fixedRows_getElem {G : Type} (lib : GeoLib G) (rows : List (RecordState G))
    (i : Nat) (h1 : i < rows.length) (h2 : i < (fixedRows lib rows).length) :
    (fixedRows lib rows).get ⟨i, h2⟩ = bufferFix lib rows[i] := by
  simp [fixedRows, List.get_eq_getElem, List.getElem_map]

theorem validateStage_filter_eq_nil {G : Type} (lib : GeoLib G) (geoms : List G) :
    (validateStage lib geoms).filter (fun r => !r.valid) = [] ↔
      ∀ g ∈ geoms, lib.is_valid g = true := by
  rw [List.filter_eq_nil_iff]
  constructor
  · intro h g hg
    obtain ⟨i, hi, rfl⟩ := List.mem_iff_getElem.mp hg
    have := h (vRecord lib i geoms[i]) ((mem_validateStage lib geoms _).mpr ⟨i, hi, rfl⟩)
    simpa [vRecord_valid] using this
  · intro h r hr
    obtain ⟨i, hi, rfl⟩ := (mem_validateStage lib geoms r).mp hr
    have := h geoms[i] (List.getElem_mem hi)
    simp [vRecord_valid, this]

theorem validateStage_filter_ne_nil {G : Type} (lib : GeoLib G) (geoms : List G) :
    (validateStage lib geoms).filter (fun r => !r.valid) ≠ [] ↔
      ∃ g ∈ geoms, lib.is_valid g = false := by
  rw [ne_eq, validateStage_filter_eq_nil]
  simp [Bool.not_eq_true]

theorem repairStage_all_valid {G : Type} (lib : GeoLib G)
    (rows : List (RecordState G)) (h : rows.filter (fun r => !r.valid) = []) :
    repairStage lib rows = (rows, []) := by
  simp [repairStage, h]

theorem repairStage_invalid {G : Type} (lib : GeoLib G)
    (rows : List (RecordState G)) (h : rows.filter (fun r => !r.valid) ≠ []) :
    repairStage lib rows =
      ((fixedRows lib rows).filter validFixed,
       (fixedRows lib rows).filter fun r => !validFixed r) := by
  have h1 : (rows.filter fun r => !r.valid).isEmpty = false :=
    List.isEmpty_eq_false.mpr h
  by_cases h2 : ((fixedRows lib rows).filter fun r => !validFixed r) = []
  · have h3 : (fixedRows lib rows).filter validFixed = fixedRows lib rows :=
      List.filter_eq_self.mpr (by
        intro a ha
        have := List.filter_eq_nil_iff.mp h2 a ha
        simpa using this)
    simp [repairStage, h1, h2, h3]
  · have h2f : ((fixedRows lib rows).filter fun r => !validFixed r).isEmpty = false :=
      List.isEmpty_eq_false.mpr h2
    simp [repairStage, h1, h2f]

theorem processBatch_kept {G : Type} [DecidableEq G] (lib : GeoLib G)
    (fn ts : String) (pt : Nat) (geoms : List G) :
    (processBatch lib fn ts pt geoms).kept =
      (repairStage lib (validateStage lib geoms)).1 := rfl

theorem processBatch_still_invalid {G : Type} [DecidableEq G] (lib : GeoLib G)
    (fn ts : String) (pt : Nat) (geoms : List G) :
    (processBatch lib fn ts pt geoms).still_invalid =
      (repairStage lib (validateStage lib geoms)).2 := rfl

theorem processBatch_duplicateFlags {G : Type} [DecidableEq G] (lib : GeoLib G)
    (fn ts : String) (pt : Nat) (geoms : List G) :
    (processBatch lib fn ts pt geoms).duplicateFlags =
      duplicatedKeepFalse
        ((processBatch lib fn ts pt geoms).kept.map RecordState.finalGeometry) := rfl

theorem processBatch_event {G : Type} [DecidableEq G] (lib : GeoLib G)
    (fn ts : String) (pt : Nat) (geoms : List G) :
    (processBatch lib fn ts pt geoms).event =
      { filename := fn, timestamp := ts, processing_time := pt
        total_features := (processBatch lib fn ts pt geoms).kept.length } := rfl

theorem exists_pair_of_two_le_count {G : Type} [DecidableEq G] {gs : List G}
    {a : G} (h : 2 ≤ gs.count a) :
    ∃ k l : Nat, ∃ hk : k < gs.length, ∃ hl : l < gs.length,
      k ≠ l ∧ gs[k] = a ∧ gs[l] = a := by
  have hsub : (List.replicate 2 a).Sublist gs :=
    List.le_count_iff_replicate_sublist.mp h
  obtain ⟨is, his, hpw⟩ := List.sublist_eq_map_getElem hsub
  have hlen : is.length = 2 := by
    have := congrArg List.length his
    simpa using this.symm
  obtain ⟨k, l, rfl⟩ := List.length_eq_two.mp hlen
  have hkl : (k : Nat) < (l : Nat) := by
    have := List.pairwise_cons.mp hpw
    exact this.1 l (by simp)
  have hk : gs[(k : Nat)] = a := by
    have := congrArg (fun t => t.head?) his
    simpa using this.symm
  have hl : gs[(l : Nat)] = a := by
    have := congrArg (fun t => t.head?.bind fun _ => t.tail.head?) his
    simpa using this.symm
  exact ⟨k, l, k.isLt, l.isLt, Nat.ne_of_lt hkl, hk, hl⟩

theorem two_le_count_of_pair {G : Type} [DecidableEq G] {gs : List G}
    {k l : Nat} (hk : k < gs.length) (hl : l < gs.length) (hne : k ≠ l)
    (h : gs[k] = gs[l]) : 2 ≤ gs.count gs[k] := by
  rw [List.le_count_iff_replicate_sublist]
  rcases Nat.lt_or_gt_of_ne hne with hlt | hgt
  · have hsub : (List.map (fun x => gs[x]) [(⟨k, hk⟩ : Fin gs.length), ⟨l, hl⟩]).Sublist gs :=
      List.map_getElem_sublist (by simpa using hlt)
    simpa [List.replicate, h] using hsub
  · have hsub : (List.map (fun x => gs[x]) [(⟨l, hl⟩ : Fin gs.length), ⟨k, hk⟩]).Sublist gs :=
      List.map_getElem_sublist (by simpa using hgt)
    simpa [List.replicate, h] using hsub

theorem two_le_count_iff_exists_other {G : Type} [DecidableEq G] (gs : List G)
    (i : Nat) (hi : i < gs.length) :
    2 ≤ gs.count gs[i] ↔ ∃ j, ∃ hj : j < gs.length, j ≠ i ∧ gs[j] = gs[i] := by
  constructor
  · intro h
    obtain ⟨k, l, hk, hl, hne, hka, hla⟩ := exists_pair_of_two_le_count h
    by_cases hki : k = i
    · exact ⟨l, hl, by omega, hla⟩
    · exact ⟨k, hk, hki, hka⟩
  · rintro ⟨j, hj, hne, hgj⟩
    exact two_le_count_of_pair hi hj (fun e => hne e.symm) hgj.symm

theorem scheduledRun_perm_eq {α β : Type} (f : α → β) (xs : List α)
    (order : List Nat) (h : order.Perm (List.range xs.length)) :
    scheduledRun f xs order = xs.map fun x => some (f x) := by
  apply List.ext_getElem
  · simp [scheduledRun]
  · intro i h1 h2
    have hi : i < xs.length := by simpa using h2
    simp only [scheduledRun, List.getElem_map, List.getElem_range]
    have hmem : (i, f xs[i]) ∈
        order.filterMap fun j => (xs.get? j).map fun x => (j, f x) := by
      refine List.mem_filterMap.mpr ⟨i, ?_, ?_⟩
      · exact h.mem_iff.mpr (List.mem_range.mpr hi)
      · rw [List.get?_eq_getElem?, List.getElem?_eq_getElem hi]
        rfl
    have hsome : ((order.filterMap fun j => (xs.get? j).map fun x => (j, f x)).find?
        fun p => p.1 = i).isSome :=
      List.find?_isSome.mpr ⟨(i, f xs[i]), hmem, by simp⟩
    obtain ⟨q, hq⟩ := Option.isSome_iff_exists.mp hsome
    have hq1 : q.1 = i := by simpa using List.find?_some hq
    have hqmem := List.mem_of_find?_eq_some hq
    obtain ⟨j, hjord, hjq⟩ := List.mem_filterMap.mp hqmem
    cases hxg : xs.get? j with
    | none => rw [hxg] at hjq; simp at hjq
    | some x =>
      rw [hxg] at hjq
      simp only [Option.map_some'] at hjq
      have hq2 : q = (j, f x) := (Option.some.inj hjq).symm
      subst hq2
      have hji : j = i := hq1
      subst hji
      rw [List.get?_eq_getElem?, List.getElem?_eq_getElem hi] at hxg
      have hxval : xs[j] = x := Option.some.inj hxg
      rw [hq]
      simp [hxval]

/-- When at least one geometry is initially invalid, the final data frame
consists exactly of the `buffer(0)`-enriched rows whose repaired geometry
revalidates. -/
theorem kept_char_of_invalid {G : Type} [DecidableEq G] (lib : GeoLib G)
    (fn ts : String) (pt : Nat) (geoms : List G)
    (hinv : ∃ g ∈ geoms, lib.is_valid g = false) (r : RecordState G) :
    r ∈ (processBatch lib fn ts pt geoms).kept ↔
      ∃ j, ∃ hj : j < geoms.length,
        r = bufferFix lib (vRecord lib j geoms[j]) ∧
        lib.is_valid (lib.buffer0 geoms[j]) = true := by
  have hne := (validateStage_filter_ne_nil lib geoms).mpr hinv
  rw [processBatch_kept, repairStage_invalid lib _ hne]
  rw [List.mem_filter]
  constructor
  · rintro ⟨hmem, hvf⟩
    obtain ⟨r0, hr0, rfl⟩ := (mem_fixedRows lib _ _).mp hmem
    obtain ⟨j, hj, rfl⟩ := (mem_validateStage lib geoms r0).mp hr0
    exact ⟨j, hj, rfl, hvf⟩
  · rintro ⟨j, hj, rfl, hv⟩
    refine ⟨(mem_fixedRows lib _ _).mpr
      ⟨vRecord lib j geoms[j], (mem_validateStage lib geoms _).mpr ⟨j, hj, rfl⟩, rfl⟩, hv⟩

/-- When at least one geometry is initially invalid, the `still_invalid`
report consists exactly of the enriched rows whose repaired geometry is
still invalid. -/
theorem still_invalid_char_of_invalid {G : Type} [DecidableEq G] (lib : GeoLib G)
    (fn ts : String) (pt : Nat) (geoms : List G)
    (hinv : ∃ g ∈ geoms, lib.is_valid g = false) (r : RecordState G) :
    r ∈ (processBatch lib fn ts pt geoms).still_invalid ↔
      ∃ j, ∃ hj : j < geoms.length,
        r = bufferFix lib (vRecord lib j geoms[j]) ∧
        lib.is_valid (lib.buffer0 geoms[j]) = false := by
  have hne := (validateStage_filter_ne_nil lib geoms).mpr hinv
  rw [processBatch_still_invalid, repairStage_invalid lib _ hne]
  rw [List.mem_filter]
  constructor
  · rintro ⟨hmem, hvf⟩
    obtain ⟨r0, hr0, rfl⟩ := (mem_fixedRows lib _ _).mp hmem
    obtain ⟨j, hj, rfl⟩ := (mem_validateStage lib geoms r0).mp hr0
    refine ⟨j, hj, rfl, ?_⟩
    have : validFixed (bufferFix lib (vRecord lib j geoms[j])) = false := by
      cases hc : validFixed (bufferFix lib (vRecord lib j geoms[j]))
      · rfl
      · rw [hc] at hvf; simp at hvf
    exact this
  · rintro ⟨j, hj, rfl, hv⟩
    refine ⟨(mem_fixedRows lib _ _).mpr
      ⟨vRecord lib j geoms[j], (mem_validateStage lib geoms _).mpr ⟨j, hj, rfl⟩, rfl⟩, ?_⟩
    have : validFixed (bufferFix lib (vRecord lib j geoms[j])) = false := hv
    rw [this]
    rfl

/-- When every geometry is initially valid, the repair branch is skipped
and the final data frame is the validated rows unchanged. -/
theorem kept_eq_of_all_valid {G : Type} [DecidableEq G] (lib : GeoLib G)
    (fn ts : String) (pt : Nat) (geoms : List G)
    (hall : ∀ g ∈ geoms, lib.is_valid g = true) :
    (processBatch lib fn ts pt geoms).kept = validateStage lib geoms ∧
    (processBatch lib fn ts pt geoms).still_invalid = [] := by
  have hnil := (validateStage_filter_eq_nil lib geoms).mpr hall
  rw [processBatch_kept, processBatch_still_invalid, repairStage_all_valid lib _ hnil]
  exact ⟨rfl, rfl⟩

/-! ### Claim theorems -/

/-- C9: for an empty input batch the pipeline terminates normally with
zero kept records, zero reported issues (initial invalids and
unrepairables), zero duplicate flags, skips the map emission and takes the
"no valid geometries" message path, and the summary event counts zero
features. -/
theorem empty_batch_reported {G : Type} [DecidableEq G] (lib : GeoLib G)
    (fn ts : String) (pt : Nat) :
    (processBatch lib fn ts pt ([] : List G)).kept = [] ∧
    (processBatch lib fn ts pt ([] : List G)).invalid_geometries = [] ∧
    (processBatch lib fn ts pt ([] : List G)).still_invalid = [] ∧
    (processBatch lib fn ts pt ([] : List G)).duplicateFlags = [] ∧
    (processBatch lib fn ts pt ([] : List G)).mapShown = false ∧
    (processBatch lib fn ts pt ([] : List G)).noValidGeometriesMessage = true ∧
    (processBatch lib fn ts pt ([] : List G)).event.total_features = 0 :=
  ⟨rfl, rfl, rfl, rfl, rfl, rfl, rfl⟩

/-- C7 (counterexample): on a two-record batch whose first polygon is
invalid and unrepairable, the summary event's `total_features` is 1, the
surviving count, not the ingested count 2 — `len(gdf)` on `src/app.py`
line 185 is taken after the exclusion on line 115. -/
theorem summary_event_total_counterexample :
    (processBatch mLib "data.geojson" "2026-01-01T00:00:00" 7
        [MGeom.poly [(0, 0)] true true, MGeom.point 1 1]).event.total_features = 1 ∧
    ([MGeom.poly [(0, 0)] true true, MGeom.point 1 1] : List MGeom).length = 2 := by
  exact ⟨rfl, rfl⟩

/-- C7 (amended): the summary event reports the number of records in the
final kept set (equal to the ingested count only when no record was
excluded), alongside the source file name, the timestamp, and the elapsed
processing time. -/
theorem summary_event_fields {G : Type} [DecidableEq G] (lib : GeoLib G)
    (fn ts : String) (pt : Nat) (geoms : List G) :
    (processBatch lib fn ts pt geoms).event.total_features =
      (processBatch lib fn ts pt geoms).kept.length ∧
    (processBatch lib fn ts pt geoms).event.filename = fn ∧
    (processBatch lib fn ts pt geoms).event.timestamp = ts ∧
    (processBatch lib fn ts pt geoms).event.processing_time = pt :=
  ⟨rfl, rfl, rfl, rfl⟩

/-- C3: the validator's issue is `None` exactly when the geometry is
valid, and on an invalid geometry it is a non-empty explanation (granted
that the library's `explain_validity` never returns the empty string on an
invalid geometry). -/
theorem validator_issue_contract {G : Type} (lib : GeoLib G) (g : G)
    (hexp : lib.is_valid g = false → lib.explain_validity g ≠ "") :
    ((parallel_validate lib g).valid = lib.is_valid g) ∧
    ((parallel_validate lib g).issue = none ↔ lib.is_valid g = true) ∧
    (lib.is_valid g = false →
      ∃ s, (parallel_validate lib g).issue = some s ∧ s ≠ "") := by
  refine ⟨rfl, ?_, ?_⟩
  · cases hv : lib.is_valid g <;> simp [parallel_validate, hv]
  · intro hv
    exact ⟨lib.explain_validity g, by simp [parallel_validate, hv], hexp hv⟩

theorem validator_issue_contract_witness :
    ((parallel_validate mLib (MGeom.poly [(0, 0)] true false)).valid =
      mLib.is_valid (MGeom.poly [(0, 0)] true false)) ∧
    ((parallel_validate mLib (MGeom.poly [(0, 0)] true false)).issue = none ↔
      mLib.is_valid (MGeom.poly [(0, 0)] true false) = true) ∧
    (mLib.is_valid (MGeom.poly [(0, 0)] true false) = false →
      ∃ s, (parallel_validate mLib (MGeom.poly [(0, 0)] true false)).issue = some s ∧
        s ≠ "") :=
  validator_issue_contract mLib (MGeom.poly [(0, 0)] true false) (by decide)

/-- C4: for any completion order of the concurrent workers that is a
permutation of the input indices, the parallel validation stage returns
exactly one result per input, in input order, slot `i` holding the
verdict of geometry `i`. -/
theorem parallel_runner_order_preserving {G : Type} (lib : GeoLib G)
    (geoms : List G) (order : List Nat)
    (h : order.Perm (List.range geoms.length)) :
    scheduledRun (parallel_validate lib) geoms order =
      geoms.map (fun g => some (parallel_validate lib g)) ∧
    (scheduledRun (parallel_validate lib) geoms order).length = geoms.length := by
  have he := scheduledRun_perm_eq (parallel_validate lib) geoms order h
  refine ⟨he, ?_⟩
  rw [he]
  simp

theorem parallel_runner_order_preserving_witness :
    scheduledRun (parallel_validate mLib)
        [MGeom.point 0 0, MGeom.line [(1, 1)], MGeom.poly [(0, 0)] true false]
        [2, 0, 1] =
      [MGeom.point 0 0, MGeom.line [(1, 1)], MGeom.poly [(0, 0)] true false].map
        (fun g => some (parallel_validate mLib g)) :=
  (parallel_runner_order_preserving mLib
    [MGeom.point 0 0, MGeom.line [(1, 1)], MGeom.poly [(0, 0)] true false]
    [2, 0, 1] (by decide)).1

/-- C1: the repair transform is applied to every record exactly when the
initial pass found at least one invalid geometry.  If all geometries were
valid, the repair columns stay absent and every record's final geometry is
its original geometry; if any was invalid, every record of the batch
(kept or still-invalid) carries `geometry_fixed = buffer0(geometry)`. -/
theorem repair_batch_trigger {G : Type} [DecidableEq G] (lib : GeoLib G)
    (fn ts : String) (pt : Nat) (geoms : List G) :
    ((∀ g ∈ geoms, lib.is_valid g = true) →
      (processBatch lib fn ts pt geoms).kept = validateStage lib geoms ∧
      ∀ r ∈ (processBatch lib fn ts pt geoms).kept,
        r.geometry_fixed = none ∧ r.finalGeometry = r.geometry) ∧
    ((∃ g ∈ geoms, lib.is_valid g = false) →
      ∀ i, ∀ hi : i < geoms.length,
        ∃ r, (r ∈ (processBatch lib fn ts pt geoms).kept ∨
              r ∈ (processBatch lib fn ts pt geoms).still_invalid) ∧
          r.index = i ∧ r.geometry = geoms[i] ∧
          r.geometry_fixed = some (lib.buffer0 geoms[i])) := by
  constructor
  · intro hall
    have hk := (kept_eq_of_all_valid lib fn ts pt geoms hall).1
    refine ⟨hk, ?_⟩
    intro r hr
    rw [hk] at hr
    obtain ⟨i, hi, rfl⟩ := (mem_validateStage lib geoms r).mp hr
    exact ⟨rfl, rfl⟩
  · intro hsome i hi
    refine ⟨bufferFix lib (vRecord lib i geoms[i]), ?_, rfl, rfl, rfl⟩
    cases hv : lib.is_valid (lib.buffer0 geoms[i])
    · exact Or.inr ((still_invalid_char_of_invalid lib fn ts pt geoms hsome _).mpr
        ⟨i, hi, rfl, hv⟩)
    · exact Or.inl ((kept_char_of_invalid lib fn ts pt geoms hsome _).mpr
        ⟨i, hi, rfl, hv⟩)

theorem repair_batch_trigger_witness :
    ((processBatch mLib "f" "t" 0 [MGeom.point 0 0]).kept =
      validateStage mLib [MGeom.point 0 0]) ∧
    (∃ r, (r ∈ (processBatch mLib "f" "t" 0
            [MGeom.point 0 0, MGeom.poly [(0, 0)] true false]).kept ∨
          r ∈ (processBatch mLib "f" "t" 0
            [MGeom.point 0 0, MGeom.poly [(0, 0)] true false]).still_invalid) ∧
      r.index = 0 ∧
      r.geometry = [MGeom.point 0 0, MGeom.poly [(0, 0)] true false][0] ∧
      r.geometry_fixed =
        some (mLib.buffer0 [MGeom.point 0 0, MGeom.poly [(0, 0)] true false][0])) :=
  ⟨((repair_batch_trigger mLib "f" "t" 0 [MGeom.point 0 0]).1 (by decide)).1,
   (repair_batch_trigger mLib "f" "t" 0
      [MGeom.point 0 0, MGeom.poly [(0, 0)] true false]).2 (by decide) 0 (by decide)⟩

/-- C2: once the repair pass has run (because some geometry was initially
invalid), the kept set is exactly the records whose repaired geometry
revalidates, with the repaired geometry as the final geometry (so every
kept record's final geometry is valid); every record whose repaired
geometry is still invalid is excluded from the kept set and shows up in
the still-invalid report with its original geometry. -/
theorem repair_partition {G : Type} [DecidableEq G] (lib : GeoLib G)
    (fn ts : String) (pt : Nat) (geoms : List G)
    (hinv : ∃ g ∈ geoms, lib.is_valid g = false) :
    (∀ r ∈ (processBatch lib fn ts pt geoms).kept,
        r.finalGeometry = lib.buffer0 r.geometry ∧
        lib.is_valid r.finalGeometry = true) ∧
    (∀ i, ∀ hi : i < geoms.length,
      (lib.is_valid (lib.buffer0 geoms[i]) = true →
        ∃ r ∈ (processBatch lib fn ts pt geoms).kept,
          r.index = i ∧ r.geometry = geoms[i] ∧
          r.finalGeometry = lib.buffer0 geoms[i]) ∧
      (lib.is_valid (lib.buffer0 geoms[i]) = false →
        (∀ r ∈ (processBatch lib fn ts pt geoms).kept, r.index ≠ i) ∧
        ∃ r ∈ (processBatch lib fn ts pt geoms).still_invalid,
          r.index = i ∧ r.geometry = geoms[i])) := by
  constructor
  · intro r hr
    obtain ⟨j, hj, rfl, hv⟩ := (kept_char_of_invalid lib fn ts pt geoms hinv r).mp hr
    exact ⟨rfl, hv⟩
  · intro i hi
    constructor
    · intro hv
      exact ⟨bufferFix lib (vRecord lib i geoms[i]),
        (kept_char_of_invalid lib fn ts pt geoms hinv _).mpr ⟨i, hi, rfl, hv⟩,
        rfl, rfl, rfl⟩
    · intro hv
      constructor
      · intro r hr hidx
        obtain ⟨j, hj, rfl, hvj⟩ :=
          (kept_char_of_invalid lib fn ts pt geoms hinv r).mp hr
        have hij : j = i := hidx
        subst hij
        exact absurd (hvj.symm.trans hv) (by decide)
      · exact ⟨bufferFix lib (vRecord lib i geoms[i]),
          (still_invalid_char_of_invalid lib fn ts pt geoms hinv _).mpr
            ⟨i, hi, rfl, hv⟩,
          rfl, rfl⟩

theorem repair_partition_witness :
    (∃ r ∈ (processBatch mLib "f" "t" 0
        [MGeom.poly [(0, 0)] true true, MGeom.point 1 1]).kept,
      r.index = 1 ∧
      r.geometry = [MGeom.poly [(0, 0)] true true, MGeom.point 1 1][1] ∧
      r.finalGeometry =
        mLib.buffer0 [MGeom.poly [(0, 0)] true true, MGeom.point 1 1][1]) ∧
    (∃ r ∈ (processBatch mLib "f" "t" 0
        [MGeom.poly [(0, 0)] true true, MGeom.point 1 1]).still_invalid,
      r.index = 0 ∧
      r.geometry = [MGeom.poly [(0, 0)] true true, MGeom.point 1 1][0]) :=
  ⟨((repair_partition mLib "f" "t" 0
      [MGeom.poly [(0, 0)] true true, MGeom.point 1 1] (by decide)).2 1
      (by decide)).1 (by decide),
   (((repair_partition mLib "f" "t" 0
      [MGeom.poly [(0, 0)] true true, MGeom.point 1 1] (by decide)).2 0
      (by decide)).2 (by decide)).2⟩

/-- C5: the duplicate detector runs over the kept set's final geometries,
and for any geometry column it flags exactly the positions whose value is
structurally equal to the value at some other position — every member of a
duplicate group, the first occurrence included — and flags nothing when
the values are pairwise distinct. -/
theorem duplicate_detector_flags {G : Type} [DecidableEq G] (lib : GeoLib G)
    (fn ts : String) (pt : Nat) (geoms : List G) (gs : List G) :
    ((processBatch lib fn ts pt geoms).duplicateFlags =
      duplicatedKeepFalse
        ((processBatch lib fn ts pt geoms).kept.map RecordState.finalGeometry)) ∧
    ((duplicatedKeepFalse gs).length = gs.length) ∧
    (∀ i, ∀ hi : i < gs.length,
      ((duplicatedKeepFalse gs)[i]? = some true ↔
        ∃ j, ∃ hj : j < gs.length, j ≠ i ∧ gs[j] = gs[i])) ∧
    (gs.Nodup → ∀ b ∈ duplicatedKeepFalse gs, b = false) := by
  refine ⟨rfl, by simp [duplicatedKeepFalse], ?_, ?_⟩
  · intro i hi
    have hmap : (duplicatedKeepFalse gs)[i]? =
        some (decide (2 ≤ gs.count gs[i])) := by
      rw [duplicatedKeepFalse, List.getElem?_map, List.getElem?_eq_getElem hi]
      rfl
    rw [hmap]
    constructor
    · intro hs
      have hd : decide (2 ≤ gs.count gs[i]) = true := Option.some.inj hs
      exact (two_le_count_iff_exists_other gs i hi).mp (of_decide_eq_true hd)
    · intro hex
      have hd := (two_le_count_iff_exists_other gs i hi).mpr hex
      rw [decide_eq_true hd]
  · intro hnd b hb
    obtain ⟨g, hg, rfl⟩ := List.mem_map.mp hb
    have hc : gs.count g ≤ 1 := List.nodup_iff_count_le_one.mp hnd g
    exact decide_eq_false (by omega)

theorem duplicate_detector_flags_witness :
    ((duplicatedKeepFalse
        [MGeom.point 0 0, MGeom.line [(1, 1)], MGeom.point 0 0])[0]? = some true) ∧
    ((duplicatedKeepFalse [MGeom.point 0 0, MGeom.line [(1, 1)]]).get
        ⟨1, by decide⟩ = false) := by
  refine ⟨((duplicate_detector_flags mLib "f" "t" 0 []
      [MGeom.point 0 0, MGeom.line [(1, 1)], MGeom.point 0 0]).2.2.1 0
      (by decide)).mpr ⟨2, by decide, by decide, by decide⟩, ?_⟩
  exact (duplicate_detector_flags mLib "f" "t" 0 []
    [MGeom.point 0 0, MGeom.line [(1, 1)]]).2.2.2 (by decide) _
    (List.get_mem _ _ _)

/-- C6 (counterexample): in a batch holding a valid point and a fixable
invalid polygon, the batch-wide repair pass runs and the point — though
originally valid — ends with final geometry `buffer(0)(point)`, the empty
polygon, which is not structurally equal to the original point. -/
theorem valid_final_geometry_counterexample :
    mIsValid (MGeom.point 0 0) = true ∧
    (processBatch mLib "f" "t" 0
        [MGeom.point 0 0, MGeom.poly [(0, 0)] true false]).kept.map
      (fun r => (r.index, r.valid, r.finalGeometry)) =
      [(0, true, MGeom.emptyPoly), (1, false, MGeom.poly [(0, 0)] false false)] ∧
    MGeom.emptyPoly ≠ MGeom.point 0 0 := by decide

/-- C6 (amended): a kept record whose original geometry is valid keeps
that geometry as its final geometry when the batch-wide repair pass did
not run; when the pass ran, its final geometry is `buffer(0)` of the
original, which need not be structurally equal to it. -/
theorem valid_final_geometry_amended {G : Type} [DecidableEq G] (lib : GeoLib G)
    (fn ts : String) (pt : Nat) (geoms : List G) :
    ∀ r ∈ (processBatch lib fn ts pt geoms).kept, r.valid = true →
      ((∀ g ∈ geoms, lib.is_valid g = true) → r.finalGeometry = r.geometry) ∧
      ((∃ g ∈ geoms, lib.is_valid g = false) →
        r.finalGeometry = lib.buffer0 r.geometry) := by
  intro r hr hv
  constructor
  · intro hall
    have hk := (kept_eq_of_all_valid lib fn ts pt geoms hall).1
    rw [hk] at hr
    obtain ⟨i, hi, rfl⟩ := (mem_validateStage lib geoms r).mp hr
    rfl
  · intro hsome
    obtain ⟨j, hj, rfl, hvj⟩ :=
      (kept_char_of_invalid lib fn ts pt geoms hsome r).mp hr
    rfl

theorem valid_final_geometry_amended_witness :
    ((vRecord mLib 0 (MGeom.point 0 0)).finalGeometry =
      (vRecord mLib 0 (MGeom.point 0 0)).geometry) ∧
    ((bufferFix mLib (vRecord mLib 0 (MGeom.point 0 0))).finalGeometry =
      mLib.buffer0 (bufferFix mLib (vRecord mLib 0 (MGeom.point 0 0))).geometry) :=
  ⟨(valid_final_geometry_amended mLib "f" "t" 0 [MGeom.point 0 0]
      (vRecord mLib 0 (MGeom.point 0 0)) (by decide) (by decide)).1 (by decide),
   (valid_final_geometry_amended mLib "f" "t" 0
      [MGeom.point 0 0, MGeom.poly [(0, 0)] true false]
      (bufferFix mLib (vRecord mLib 0 (MGeom.point 0 0))) (by decide)
      (by decide)).2 (by decide)⟩

/-- C10: when the repair pass runs (some geometry in the batch was
invalid) and a record's valid geometry is one whose `buffer(0)` image is a
(valid) empty geometry — shapely's behaviour on points and line strings —
that record is retained in the kept set with the `buffer(0)` image as its
final geometry instead of its original shape. -/
theorem nonareal_record_kept_empty {G : Type} [DecidableEq G] (lib : GeoLib G)
    (fn ts : String) (pt : Nat) (geoms : List G) (i : Nat)
    (hi : i < geoms.length)
    (hinv : ∃ g ∈ geoms, lib.is_valid g = false)
    (_hvalid : lib.is_valid geoms[i] = true)
    (hbuf : lib.is_valid (lib.buffer0 geoms[i]) = true)
    (hne : lib.buffer0 geoms[i] ≠ geoms[i]) :
    ∃ r ∈ (processBatch lib fn ts pt geoms).kept,
      r.index = i ∧ r.geometry = geoms[i] ∧
      r.finalGeometry = lib.buffer0 geoms[i] ∧ r.finalGeometry ≠ r.geometry := by
  refine ⟨bufferFix lib (vRecord lib i geoms[i]),
    (kept_char_of_invalid lib fn ts pt geoms hinv _).mpr ⟨i, hi, rfl, hbuf⟩,
    rfl, rfl, rfl, hne⟩

theorem nonareal_record_kept_empty_witness :
    ∃ r ∈ (processBatch mLib "f" "t" 0
        [MGeom.point 0 0, MGeom.poly [(0, 0)] true false]).kept,
      r.index = 0 ∧
      r.geometry = [MGeom.point 0 0, MGeom.poly [(0, 0)] true false][0] ∧
      r.finalGeometry =
        mLib.buffer0 [MGeom.point 0 0, MGeom.poly [(0, 0)] true false][0] ∧
      r.finalGeometry ≠ r.geometry :=
  nonareal_record_kept_empty mLib "f" "t" 0
    [MGeom.point 0 0, MGeom.poly [(0, 0)] true false] 0 (by decide) (by decide)
    (by decide) (by decide) (by decide)

/-- C8: publishing the summary event never disturbs the pipeline: the
run's record output is the same whatever producer is supplied; a missing
producer makes the call a logged no-op, and a failing send is caught and
logged — in every case `send_kafka_event` returns normally. -/
theorem kafka_publish_nonfatal {G : Type} [DecidableEq G] (lib : GeoLib G)
    (fn ts : String) (pt : Nat) (geoms : List G)
    (p1 p2 : Option (KafkaProducer AppEvent)) :
    ((runApp lib p1 fn ts pt geoms).1 = processBatch lib fn ts pt geoms) ∧
    ((runApp lib p1 fn ts pt geoms).1 = (runApp lib p2 fn ts pt geoms).1) ∧
    ((runApp lib none fn ts pt geoms).2 = KafkaSendResult.producerMissing) ∧
    (∀ (pr : KafkaProducer AppEvent) (e : String),
      pr.send "geojson_upload_events" (processBatch lib fn ts pt geoms).event =
        Except.error e →
      (runApp lib (some pr) fn ts pt geoms).2 = KafkaSendResult.sendFailed e) := by
  refine ⟨rfl, rfl, rfl, ?_⟩
  intro pr e he
  simp [runApp, send_kafka_event, he]

theorem kafka_publish_nonfatal_witness :
    ((runApp mLib none "f" "t" 0 [MGeom.point 0 0]).2 =
      KafkaSendResult.producerMissing) ∧
    ((runApp mLib
        (some { send := fun _ _ => Except.error "broker down"
                flush := Except.ok () }) "f" "t" 0 [MGeom.point 0 0]).2 =
      KafkaSendResult.sendFailed "broker down") ∧
    ((runApp mLib none "f" "t" 0 [MGeom.point 0 0]).1 =
      (runApp mLib
        (some { send := fun _ _ => Except.error "broker down"
                flush := Except.ok () }) "f" "t" 0 [MGeom.point 0 0]).1) := by
  have h := kafka_publish_nonfatal mLib "f" "t" 0 [MGeom.point 0 0] none
    (some { send := fun _ _ => Except.error "broker down", flush := Except.ok () })
  exact ⟨h.2.2.1, h.2.2.2 _ "broker down" rfl, h.2.1⟩
